import Mathlib

/-
Verification of the Node_JS_API blog service against its specification.
The controllers (controllers/feed.js, controllers/auth.js, controllers/user.js)
and the validation chains of the Express routes are embedded shallowly: the two
mongo collections become explicit lists, each handler becomes a pure function
from the store state and the request data to an HTTP outcome, returning the
store state after any writes it issued.
-/

set_option maxHeartbeats 1000000

deriving instance DecidableEq for Except

namespace Blog

/-- Kernel-computable model of the JavaScript String trim used by the
express-validator trim sanitizer: drop whitespace at both ends. -/
def strTrim (s : String) : String :=
  ⟨((s.data.dropWhile Char.isWhitespace).reverse.dropWhile
      Char.isWhitespace).reverse⟩

def lowerChar (c : Char) : Char :=
  if 'A' ≤ c && c ≤ 'Z' then Char.ofNat (c.toNat + 32) else c

/-- HTTP-style error: status code and message, as produced by the Express error
handler in app.js from err.statusCode and err.message. -/
structure Err where
  status : Nat
  message : String
deriving DecidableEq

/-- Post record, after the models/post.js schema (title, content, author
reference, allowed flag). ObjectIds are modelled as naturals. -/
structure Post where
  id : Nat
  title : String
  content : String
  author : Nat
  allowed : Bool
deriving DecidableEq

/-- User record, after the models/user.js schema (email, password digest,
names, role string, list of owned post ids). -/
structure User where
  id : Nat
  email : String
  password : String
  firstName : String
  lastName : String
  role : String
  posts : List Nat
deriving DecidableEq

/-- The two mongo collections. -/
@[ext]
structure DB where
  posts : List Post
  users : List User
deriving DecidableEq

/-- Model.findById: the first record whose key equals the id, none otherwise. -/
def findBy (key : α → Nat) (l : List α) (i : Nat) : Option α :=
  l.find? (fun x => key x == i)

/-- document.save() on a record already in the collection: replace the record
with the same key. -/
def saveBy (key : α → Nat) (l : List α) (x : α) : List α :=
  l.map (fun y => if key y == key x then x else y)

def findPost (db : DB) (i : Nat) : Option Post := findBy Post.id db.posts i

def findUser (db : DB) (i : Nat) : Option User := findBy User.id db.users i

def savePost (db : DB) (p : Post) : DB :=
  { db with posts := saveBy Post.id db.posts p }

def saveUser (db : DB) (u : User) : DB :=
  { db with users := saveBy User.id db.users u }

/-- document.save() on a new record: mongo rejects a duplicate key (E11000
surfaces as a plain 500 error), otherwise the record is appended. -/
def insertPost (db : DB) (p : Post) : Option DB :=
  if (findPost db p.id).isSome then none
  else some { db with posts := db.posts ++ [p] }

def insertUser (db : DB) (u : User) : Option DB :=
  if (findUser db u.id).isSome then none
  else some { db with users := db.users ++ [u] }

/-- Post.findByIdAndRemove. -/
def removePostById (db : DB) (i : Nat) : DB :=
  { db with posts := db.posts.filter (fun p => !(p.id == i)) }

/-- Errors without an own statusCode (TypeError on a null record, store
failures) reach the handler with status defaulted to 500; the exact runtime
message is abstracted. -/
def internalErr : Err := ⟨500, "Internal server error."⟩

def notAuthorizedErr : Err := ⟨401, "Not authorized."⟩

def noPostsErr : Err := ⟨404, "Could not find any posts."⟩

def validationErr : Err := ⟨422, "Validation failed, entered data is incorrect."⟩

/-- skip((page - 1) * 4).limit(4) pagination used by getPosts and
getPostRequests, 1-indexed. -/
def pageOf (l : List Post) (page : Nat) : List Post :=
  (l.drop ((page - 1) * 4)).take 4

/-- Spec-side restatement of one listing page: the filtered list paginated,
NotFound 404 exactly when the requested page is empty, and the total count of
the filtered list. getPosts is compared against this shape per role. -/
def specPage (l : List Post) (page : Nat) : Except Err (List Post × Nat) :=
  if (pageOf l page).isEmpty then .error noPostsErr
  else .ok (pageOf l page, l.length)

/-- controllers/feed.js getPosts. The viewer is req.userId as attached by the
optional-auth middleware (none for an anonymous request). In the source the
user lookup precedes the branch; findById of an absent or undefined id yields
null, and reading .role on null raises a plain error, hence 500. A role
outside the three known strings leaves posts unassigned, and the !posts guard
turns that into the 404 branch. -/
def getPosts (db : DB) (userId : Option Nat) (page : Nat) :
    Except Err (List Post × Nat) :=
  match userId with
  | none =>
    let l := db.posts.filter (fun p => p.allowed)
    let posts := pageOf l page
    if posts.isEmpty then .error noPostsErr else .ok (posts, l.length)
  | some uid =>
    match findUser db uid with
    | none => .error internalErr
    | some user =>
      if user.role == "USER" then
        let l := db.posts.filter (fun p => p.allowed)
        let posts := pageOf l page
        if posts.isEmpty then .error noPostsErr else .ok (posts, l.length)
      else if user.role == "BLOGGER" then
        let l := db.posts.filter (fun p => p.author == uid)
        let posts := pageOf l page
        if posts.isEmpty then .error noPostsErr else .ok (posts, l.length)
      else if user.role == "ADMIN" then
        let l := db.posts
        let posts := pageOf l page
        if posts.isEmpty then .error noPostsErr else .ok (posts, l.length)
      else .error noPostsErr

/-- controllers/feed.js getPostRequests: ADMIN only (401 otherwise), pending
posts paginated, 404 when the page is empty. A missing viewer record gives a
TypeError, hence 500. -/
def getPostRequests (db : DB) (userId : Nat) (page : Nat) :
    Except Err (List Post × Nat) :=
  match findUser db userId with
  | none => .error internalErr
  | some user =>
    if !(user.role == "ADMIN") then .error notAuthorizedErr
    else
      let l := db.posts.filter (fun p => !p.allowed)
      let posts := pageOf l page
      if posts.isEmpty then .error noPostsErr else .ok (posts, l.length)

/-- controllers/feed.js allowPostRequest (the approve operation). The post
lookup happens first but nothing dereferences it before the admin check; a
null post or a null author then raises a TypeError (500), after any writes
already issued. -/
def allowPostRequest (db : DB) (postId : Nat) (userId : Nat) :
    Except Err Post × DB :=
  let post? := findPost db postId
  match findUser db userId with
  | none => (.error internalErr, db)
  | some user =>
    if !(user.role == "ADMIN") then (.error notAuthorizedErr, db)
    else
      match post? with
      | none => (.error internalErr, db)
      | some post =>
        let post1 := { post with allowed := true }
        let db1 := savePost db post1
        match findUser db1 post.author with
        | none => (.error internalErr, db1)
        | some postAuthor =>
          if !(postAuthor.role == "ADMIN") then
            (.ok post1, saveUser db1 { postAuthor with role := "BLOGGER" })
          else (.ok post1, db1)

/-- controllers/feed.js getPost: 404 with the fixed message when absent. The
id-naming message in the catch block is attached only to errors without an
own statusCode (the 500 path), so it never reaches the 404 response. -/
def getPost (db : DB) (postId : Nat) : Except Err Post :=
  match findPost db postId with
  | none => .error ⟨404, "Could not find post."⟩
  | some p => .ok p

/-- controllers/user.js getUser: same shape as getPost. -/
def getUser (db : DB) (userId : Nat) : Except Err User :=
  match findUser db userId with
  | none => .error ⟨404, "Could not find a user."⟩
  | some u => .ok u

/-- controllers/user.js getUsers: User.find() always yields an array, never a
null value, so the !users guard before the 404 branch is never taken and the
whole list (possibly empty) is returned with status 200. -/
def getUsers (db : DB) : Except Err (List User) :=
  let users := db.users
  .ok users

/-- The express-validator chains on the post routes in routes/feed.js:
body title and body content are trimmed and must have length at least 5.
The trim sanitizer persists, so the controller sees the trimmed values. -/
def validPostInput (title content : String) : Bool :=
  decide (5 ≤ (strTrim title).length) && decide (5 ≤ (strTrim content).length)

/-- controllers/feed.js createPost. The fresh ObjectId the driver would mint
is passed explicitly as newId. The allowed field of a new Post is not set by
the controller; modelled from the spec: the models/post.js schema (not among
the provided sources) defaults allowed to false. A null user after the post
save raises a TypeError (500) with the post already inserted. -/
def createPost (db : DB) (newId : Nat) (authorId : Nat)
    (title content : String) : Except Err (Post × User) × DB :=
  if !(validPostInput title content) then (.error validationErr, db)
  else
    let post : Post := ⟨newId, strTrim title, strTrim content, authorId, false⟩
    match insertPost db post with
    | none => (.error internalErr, db)
    | some db1 =>
      match findUser db1 authorId with
      | none => (.error internalErr, db1)
      | some user =>
        let user1 := { user with posts := user.posts ++ [post.id] }
        (.ok (post, user1), saveUser db1 user1)

/-- controllers/feed.js updatePost: 422 before any store access, then 404 on a
missing post, 403 when the editor is not the author, else overwrite title and
content and set allowed to true. -/
def updatePost (db : DB) (postId : Nat) (editorId : Nat)
    (title content : String) : Except Err Post × DB :=
  if !(validPostInput title content) then (.error validationErr, db)
  else
    match findPost db postId with
    | none => (.error ⟨404, "Could not find post for update."⟩, db)
    | some post =>
      if !(post.author == editorId) then
        (.error ⟨403, "Not authenticated."⟩, db)
      else
        let post1 := { post with
          title := strTrim title, content := strTrim content, allowed := true }
        (.ok post1, savePost db post1)

/-- controllers/feed.js deletePost: 404 on a missing post, 403 when the caller
is not the author, else remove the post and pull its id from the caller posts
list. A null user after the removal raises a TypeError (500). -/
def deletePost (db : DB) (postId : Nat) (editorId : Nat) :
    Except Err Post × DB :=
  match findPost db postId with
  | none => (.error ⟨404, "Could not find post to delete."⟩, db)
  | some post =>
    if !(post.author == editorId) then
      (.error ⟨403, "Not authenticated."⟩, db)
    else
      let db1 := removePostById db postId
      match findUser db1 editorId with
      | none => (.error internalErr, db1)
      | some user =>
        let user1 :=
          { user with posts := user.posts.filter (fun i => !(i == postId)) }
        (.ok post, saveUser db1 user1)

/-- Stand-in for the external validator.js isEmail predicate used by
routes/auth.js; the library itself is outside the repository. -/
def isEmail (s : String) : Bool :=
  let cs := s.data
  (cs.count '@' == 1) &&
    (let front := cs.takeWhile (fun c => !(c == '@'))
     let rest := cs.drop (front.length + 1)
     !front.isEmpty && !rest.isEmpty && rest.contains '.')

/-- Stand-in for the external validator.js normalizeEmail sanitizer. -/
def normalizeEmail (s : String) : String := ⟨s.data.map lowerChar⟩

/-- Stand-in for the external bcrypt hash with cost 12; the hashing primitive
is outside the repository, only that some digest string is stored matters. -/
def bcryptHash (pw : String) : String := "$2a$12$" ++ pw

/-- routes/auth.js register validation chain plus controllers/auth.js
register. The email chain: isEmail, then a custom check that User.findOne on
the raw submitted email finds nothing, then normalizeEmail; the password
chain trims and requires length at least 5. Any collected error yields 422
with no write. Modelled from the spec: the models/user.js schema (not among
the provided sources) defaults role to USER and posts to the empty list. -/
def register (db : DB) (newId : Nat)
    (email password firstName lastName : String) : Except Err Nat × DB :=
  if !(isEmail email) || db.users.any (fun u => u.email == email)
      || decide ((strTrim password).length < 5) then
    (.error ⟨422, "Validation failed."⟩, db)
  else
    let user : User := ⟨newId, normalizeEmail email, bcryptHash (strTrim password),
                        firstName, lastName, "USER", []⟩
    match insertUser db user with
    | none => (.error internalErr, db)
    | some db1 => (.ok newId, db1)

/-- The state-changing operations of the API; the read endpoints (getPosts,
getPostRequests, getPost, getUsers, getUser and login) take the stores only
as input and cannot modify them. -/
inductive Op where
  | create (newId authorId : Nat) (title content : String)
  | update (postId editorId : Nat) (title content : String)
  | approve (postId viewerId : Nat)
  | remove (postId editorId : Nat)
  | signup (newId : Nat) (email password firstName lastName : String)

/-- The store state after running an operation. -/
def applyOp (db : DB) : Op → DB
  | .create newId authorId t c => (createPost db newId authorId t c).2
  | .update postId editorId t c => (updatePost db postId editorId t c).2
  | .approve postId viewerId => (allowPostRequest db postId viewerId).2
  | .remove postId editorId => (deletePost db postId editorId).2
  | .signup newId e pw f l => (register db newId e pw f l).2

/-- The two writers that touch the allowed flag. -/
def Op.isModeration : Op → Bool
  | .update _ _ _ _ => true
  | .approve _ _ => true
  | _ => false

theorem findBy_eq_key {α : Type} (key : α → Nat) (l : List α) (i : Nat)
    (x : α) (h : findBy key l i = some x) : key x = i := by
  have h2 := List.find?_some h
  simpa using h2

theorem findBy_saveBy_self {α : Type} (key : α → Nat) (l : List α) (x : α)
    (h : (findBy key l (key x)).isSome) :
    findBy key (saveBy key l x) (key x) = some x := by
  have hpf : ((fun y => key y == key x) ∘
      (fun y => if key y == key x then x else y)) =
      (fun y => key y == key x) := by
    funext y
    by_cases hy : key y = key x <;> simp [hy]
  rw [findBy, saveBy, List.find?_map, hpf]
  rw [findBy] at h
  cases hf : List.find? (fun y => key y == key x) l with
  | none => rw [hf] at h; simp at h
  | some a =>
    have ha : key a = key x := by simpa using List.find?_some hf
    simp [Option.map, ha]

theorem findBy_saveBy_ne {α : Type} (key : α → Nat) (l : List α) (x : α)
    (i : Nat) (h : key x ≠ i) :
    findBy key (saveBy key l x) i = findBy key l i := by
  have hpf : ((fun y => key y == i) ∘
      (fun y => if key y == key x then x else y)) =
      (fun y => key y == i) := by
    funext y
    by_cases hy : key y = key x
    · have hx : (key x == i) = false := by simpa using h
      simp [hy, hx]
    · simp [hy]
  rw [findBy, saveBy, List.find?_map, hpf, findBy]
  cases hf : List.find? (fun y => key y == i) l with
  | none => rfl
  | some a =>
    have ha : key a = i := by simpa using List.find?_some hf
    have hax : (key a == key x) = false := by
      simp only [beq_eq_false_iff_ne, ne_eq, ha]
      exact fun hh => h hh.symm
    simp [Option.map, hax]

theorem saveBy_saveBy {α : Type} (key : α → Nat) (l : List α) (x : α) :
    saveBy key (saveBy key l x) x = saveBy key l x := by
  have hf : ((fun y => if key y == key x then x else y) ∘
      (fun y => if key y == key x then x else y)) =
      (fun y => if key y == key x then x else y) := by
    funext y
    by_cases h : key y = key x <;> simp [h]
  simp only [saveBy, List.map_map, hf]

theorem findBy_append_some {α : Type} (key : α → Nat) (l xs : List α)
    (i : Nat) (x : α) (h : findBy key l i = some x) :
    findBy key (l ++ xs) i = some x := by
  rw [findBy, List.find?_append]
  rw [findBy] at h
  rw [h]
  rfl

theorem findBy_append_none {α : Type} (key : α → Nat) (l xs : List α)
    (i : Nat) (h : findBy key l i = none) :
    findBy key (l ++ xs) i = findBy key xs i := by
  rw [findBy, List.find?_append]
  rw [findBy] at h
  rw [h]
  rfl

theorem findBy_filter_ne {α : Type} (key : α → Nat) (l : List α) (j i : Nat)
    (h : i ≠ j) :
    findBy key (l.filter (fun y => !(key y == j))) i = findBy key l i := by
  rw [findBy, List.find?_filter, findBy]
  congr 1
  funext a
  by_cases ha : key a = i
  · simp [ha, h]
  · simp [ha]

theorem findBy_filter_self {α : Type} (key : α → Nat) (l : List α)
    (j : Nat) :
    findBy key (l.filter (fun y => !(key y == j))) j = none := by
  rw [findBy, List.find?_filter]
  refine List.find?_eq_none.mpr ?_
  intro x hx
  by_cases hx2 : key x = j <;> simp [hx2]

theorem findBy_singleton {α : Type} (key : α → Nat) (x : α) :
    findBy key [x] (key x) = some x := by
  simp [findBy]

theorem any_key_eq_isSome {α : Type} (key : α → Nat) (l : List α) (i : Nat) :
    l.any (fun x => key x == i) = (findBy key l i).isSome := by
  rw [Bool.eq_iff_iff]
  simp [findBy, List.any_eq_true]

theorem findUser_savePost (db : DB) (p : Post) (i : Nat) :
    findUser (savePost db p) i = findUser db i := rfl

theorem findPost_saveUser (db : DB) (u : User) (i : Nat) :
    findPost (saveUser db u) i = findPost db i := rfl

theorem findUser_removePost (db : DB) (j i : Nat) :
    findUser (removePostById db j) i = findUser db i := rfl

theorem savePost_savePost (db : DB) (p : Post) :
    savePost (savePost db p) p = savePost db p := by
  simp only [savePost]
  rw [saveBy_saveBy]

theorem saveUser_saveUser (db : DB) (u : User) :
    saveUser (saveUser db u) u = saveUser db u := by
  simp only [saveUser]
  rw [saveBy_saveBy]

theorem mem_pageOf (l : List Post) (page : Nat) (p : Post)
    (h : p ∈ pageOf l page) : p ∈ l :=
  List.mem_of_mem_drop (List.mem_of_mem_take h)

/-- C3: listPosts projects the store by viewer role: an anonymous viewer or a
viewer with role USER gets exactly the requested page of the published posts,
a BLOGGER gets exactly the page of the posts authored by the viewer in any
state, an ADMIN the page of all posts, each paginated 4 per page, 1-indexed,
failing with NotFound 404 exactly when the resulting page is empty, also for
page numbers beyond the last page; consequently an anonymous viewer receives
only published posts and a BLOGGER only posts of their own. -/
theorem getPosts_role_projection (db : DB) (page : Nat) :
    (getPosts db none page =
      specPage (db.posts.filter (fun p => p.allowed)) page) ∧
    (∀ uid u, findUser db uid = some u →
      (u.role = "USER" → getPosts db (some uid) page =
        specPage (db.posts.filter (fun p => p.allowed)) page) ∧
      (u.role = "BLOGGER" → getPosts db (some uid) page =
        specPage (db.posts.filter (fun p => p.author == uid)) page) ∧
      (u.role = "ADMIN" → getPosts db (some uid) page =
        specPage db.posts page)) ∧
    (∀ posts total, getPosts db none page = .ok (posts, total) →
      ∀ p, p ∈ posts → p.allowed = true) ∧
    (∀ uid u posts total, findUser db uid = some u → u.role = "BLOGGER" →
      getPosts db (some uid) page = .ok (posts, total) →
      ∀ p, p ∈ posts → p.author = uid) := by
  have hanon : getPosts db none page =
      specPage (db.posts.filter (fun p => p.allowed)) page := rfl
  refine ⟨hanon, ?_, ?_, ?_⟩
  · intro uid u hu
    refine ⟨?_, ?_, ?_⟩ <;> intro hrole <;>
      simp [getPosts, hu, hrole, specPage]
  · intro posts total h p hp
    rw [hanon] at h
    simp only [specPage] at h
    split at h
    · cases h
    · cases h
      exact (List.mem_filter.mp (mem_pageOf _ _ _ hp)).2
  · intro uid u posts total hu hrole h p hp
    have heq : getPosts db (some uid) page =
        specPage (db.posts.filter (fun p => p.author == uid)) page := by
      simp [getPosts, hu, hrole, specPage]
    rw [heq] at h
    simp only [specPage] at h
    split at h
    · cases h
    · cases h
      have := (List.mem_filter.mp (mem_pageOf _ _ _ hp)).2
      simpa using this

theorem getPosts_role_projection_witness :
    getPosts ⟨[⟨1, "Hello", "World", 10, true⟩],
        [⟨10, "a@x.com", "pw", "Ana", "Bo", "ADMIN", [1]⟩]⟩ (some 10) 1 =
      specPage [⟨1, "Hello", "World", 10, true⟩] 1 ∧
    getPosts ⟨[⟨1, "Hello", "World", 10, true⟩],
        [⟨10, "a@x.com", "pw", "Ana", "Bo", "ADMIN", [1]⟩]⟩ none 1 =
      specPage [⟨1, "Hello", "World", 10, true⟩] 1 := by
  constructor
  · exact (((getPosts_role_projection
      ⟨[⟨1, "Hello", "World", 10, true⟩],
        [⟨10, "a@x.com", "pw", "Ana", "Bo", "ADMIN", [1]⟩]⟩ 1).2.1
      10 ⟨10, "a@x.com", "pw", "Ana", "Bo", "ADMIN", [1]⟩
      (by decide)).2.2 rfl)
  · have h := (getPosts_role_projection
      ⟨[⟨1, "Hello", "World", 10, true⟩],
        [⟨10, "a@x.com", "pw", "Ana", "Bo", "ADMIN", [1]⟩]⟩ 1).1
    rw [h]
    decide

/-- C5: updatePost fails 422 when the trimmed title or content has fewer than
5 characters, 404 when no post has the given id, 403 when the editor is not
the author of the post; on success it overwrites title and content with the
trimmed request values and resets the allowed flag to true regardless of its
prior state, persisting the post. -/
theorem updatePost_spec (db : DB) (postId editorId : Nat)
    (title content : String) :
    ((strTrim title).length < 5 ∨ (strTrim content).length < 5 →
      updatePost db postId editorId title content =
        (.error validationErr, db)) ∧
    (5 ≤ (strTrim title).length → 5 ≤ (strTrim content).length →
      findPost db postId = none →
      updatePost db postId editorId title content =
        (.error ⟨404, "Could not find post for update."⟩, db)) ∧
    (∀ p, 5 ≤ (strTrim title).length → 5 ≤ (strTrim content).length →
      findPost db postId = some p → p.author ≠ editorId →
      updatePost db postId editorId title content =
        (.error ⟨403, "Not authenticated."⟩, db)) ∧
    (∀ p, 5 ≤ (strTrim title).length → 5 ≤ (strTrim content).length →
      findPost db postId = some p → p.author = editorId →
      updatePost db postId editorId title content =
        (.ok { p with
               title := strTrim title,
               content := strTrim content,
               allowed := true },
         savePost db { p with
                       title := strTrim title,
                       content := strTrim content,
                       allowed := true })) := by
  refine ⟨?_, ?_, ?_, ?_⟩
  · intro h
    have hv : validPostInput title content = false := by
      rcases h with h | h
      · simp [validPostInput, Nat.not_le.mpr h]
      · simp [validPostInput, Nat.not_le.mpr h]
    simp [updatePost, hv]
  · intro h1 h2 hnone
    have hv : validPostInput title content = true := by
      simp [validPostInput, h1, h2]
    simp [updatePost, hv, hnone]
  · intro p h1 h2 hp hne
    have hv : validPostInput title content = true := by
      simp [validPostInput, h1, h2]
    have hb : (p.author == editorId) = false := by simpa using hne
    simp [updatePost, hv, hp, hb]
  · intro p h1 h2 hp heq
    have hv : validPostInput title content = true := by
      simp [validPostInput, h1, h2]
    have hb : (p.author == editorId) = true := by simpa using heq
    simp [updatePost, hv, hp, hb]

theorem updatePost_spec_witness :
    updatePost ⟨[⟨1, "old titles", "old content", 10, false⟩], []⟩
        1 10 "Hello" "World" =
      (.ok ⟨1, "Hello", "World", 10, true⟩,
       savePost ⟨[⟨1, "old titles", "old content", 10, false⟩], []⟩
         ⟨1, "Hello", "World", 10, true⟩) ∧
    updatePost ⟨[⟨1, "old titles", "old content", 10, false⟩], []⟩
        1 99 "Hi" "World" = (.error validationErr,
      ⟨[⟨1, "old titles", "old content", 10, false⟩], []⟩) := by
  constructor
  · exact (updatePost_spec ⟨[⟨1, "old titles", "old content", 10, false⟩], []⟩
      1 10 "Hello" "World").2.2.2 ⟨1, "old titles", "old content", 10, false⟩
      (by decide) (by decide) (by decide) rfl
  · exact (updatePost_spec ⟨[⟨1, "old titles", "old content", 10, false⟩], []⟩
      1 99 "Hi" "World").1 (Or.inl (by decide))

/-- C10: in updatePost and createPost the input validation is decided before
the post lookup and the authorship check: whenever the trimmed title or
content is shorter than 5 characters the operation fails 422 with the store
unchanged, never 404 or 403, even when the target post is absent or the
caller is not its author. -/
theorem validation_precedes_lookup (db : DB)
    (postId editorId newId authorId : Nat) (title content : String)
    (h : (strTrim title).length < 5 ∨ (strTrim content).length < 5) :
    updatePost db postId editorId title content =
      (.error validationErr, db) ∧
    createPost db newId authorId title content =
      (.error validationErr, db) := by
  have hv : validPostInput title content = false := by
    rcases h with h | h
    · simp [validPostInput, Nat.not_le.mpr h]
    · simp [validPostInput, Nat.not_le.mpr h]
  exact ⟨by simp [updatePost, hv], by simp [createPost, hv]⟩

theorem validation_precedes_lookup_witness :
    updatePost ⟨[], []⟩ 1 2 "Hi" "World" =
      (.error validationErr, (⟨[], []⟩ : DB)) ∧
    createPost ⟨[], []⟩ 3 4 "Hi" "World" =
      (.error validationErr, (⟨[], []⟩ : DB)) :=
  validation_precedes_lookup ⟨[], []⟩ 1 2 3 4 "Hi" "World"
    (Or.inl (by decide))

/-- C7: register fails 422 and leaves the user store unchanged when the email
is malformed (external isEmail stand-in), when the email is already
registered, or when the trimmed password has fewer than 5 characters; in
particular a second registration with an email already in the store fails 422
and creates no new record. -/
theorem register_rejects_invalid (db : DB) (newId : Nat)
    (email password firstName lastName : String)
    (h : isEmail email = false ∨ (∃ u, u ∈ db.users ∧ u.email = email) ∨
      (strTrim password).length < 5) :
    register db newId email password firstName lastName =
      (.error ⟨422, "Validation failed."⟩, db) := by
  rcases h with h | h | h
  · simp [register, h]
  · have hany : db.users.any (fun u => u.email == email) = true := by
      rcases h with ⟨u, hu, he⟩
      exact List.any_eq_true.mpr ⟨u, hu, by simpa using he⟩
    simp [register, hany]
  · simp [register, Nat.not_le.mpr h]

theorem register_rejects_invalid_witness :
    register ⟨[], [⟨10, "a@x.com", "h", "Ana", "Bo", "USER", []⟩]⟩
        11 "a@x.com" "secret" "Cy" "Do" =
      (.error ⟨422, "Validation failed."⟩,
       ⟨[], [⟨10, "a@x.com", "h", "Ana", "Bo", "USER", []⟩]⟩) :=
  register_rejects_invalid
    ⟨[], [⟨10, "a@x.com", "h", "Ana", "Bo", "USER", []⟩]⟩
    11 "a@x.com" "secret" "Cy" "Do"
    (Or.inr (Or.inl ⟨⟨10, "a@x.com", "h", "Ana", "Bo", "USER", []⟩,
      by decide, rfl⟩))

/-- C8 (amended): when the post or the user is absent, getPost and getUser
fail with NotFound 404 carrying the fixed messages of the source; the
id-naming message exists in the code but is attached only to errors without
an own statusCode, that is on the 500 path, never on the 404 response. -/
theorem getPost_getUser_absent_404 (db : DB) (postId userId : Nat)
    (hp : findPost db postId = none) (hu : findUser db userId = none) :
    getPost db postId = .error ⟨404, "Could not find post."⟩ ∧
    getUser db userId = .error ⟨404, "Could not find a user."⟩ := by
  constructor
  · simp [getPost, hp]
  · simp [getUser, hu]

theorem getPost_getUser_absent_404_witness :
    getPost ⟨[], []⟩ 7 = .error ⟨404, "Could not find post."⟩ ∧
    getUser ⟨[], []⟩ 7 = .error ⟨404, "Could not find a user."⟩ :=
  getPost_getUser_absent_404 ⟨[], []⟩ 7 7 rfl rfl

/-- C8 (counterexample): at the concrete absent id 7 both operations return
404, but the error messages are the fixed strings of the source, which do not
even contain the digit of the requested id, so the message does not name the
requested id as the claim states. -/
theorem notFound_message_lacks_id :
    getPost ⟨[], []⟩ 7 = .error ⟨404, "Could not find post."⟩ ∧
    getUser ⟨[], []⟩ 7 = .error ⟨404, "Could not find a user."⟩ ∧
    "Could not find post.".data.contains '7' = false ∧
    "Could not find a user.".data.contains '7' = false := by decide

/-- C9 (amended): listUsers returns the whole user store with status 200,
including the empty list when the store holds no users; the 404 guard in the
source tests a find() result that is always an array and is therefore dead
code. A store connectivity failure is outside this pure model and surfaces in
the source as a generic 500, not a 404. -/
theorem getUsers_returns_all (db : DB) : getUsers db = .ok db.users := rfl

/-- C9 (counterexample): on an empty user store listUsers succeeds with the
empty list instead of failing with NotFound 404 as the claim states. -/
theorem getUsers_empty_store_ok :
    getUsers ⟨[], []⟩ = .ok ([] : List User) ∧
    getUsers ⟨[], []⟩ ≠ .error ⟨404, "Could not find any users."⟩ := by decide

theorem findUser_withPosts (db : DB) (l : List Post) (i : Nat) :
    findUser { db with posts := l } i = findUser db i := rfl

theorem findPost_withUsers (db : DB) (l : List User) (i : Nat) :
    findPost { db with users := l } i = findPost db i := rfl

theorem createPost_posts (db : DB) (newId authorId : Nat) (t c : String) :
    ((createPost db newId authorId t c).2).posts = db.posts ∨
    ((createPost db newId authorId t c).2).posts =
      db.posts ++ [⟨newId, strTrim t, strTrim c, authorId, false⟩] := by
  simp only [createPost]
  split
  · exact Or.inl rfl
  · split
    · exact Or.inl rfl
    · rename_i db1 heq
      simp only [insertPost] at heq
      split at heq
      · exact absurd heq (by simp)
      · cases heq
        split
        · exact Or.inr rfl
        · exact Or.inr rfl

theorem register_posts (db : DB) (newId : Nat) (e pw f l : String) :
    ((register db newId e pw f l).2).posts = db.posts := by
  simp only [register]
  split
  · rfl
  · split
    · rfl
    · rename_i db1 heq
      simp only [insertUser] at heq
      split at heq
      · exact absurd heq (by simp)
      · cases heq
        rfl

theorem findPost_savePost_cases (db : DB) (i : Nat) (p pnew q : Post)
    (hp : findPost db i = some p)
    (hq : findPost (savePost db pnew) i = some q) :
    q = p ∨ q = pnew := by
  have hq' : findBy Post.id (saveBy Post.id db.posts pnew) i = some q := hq
  have hp' : findBy Post.id db.posts i = some p := hp
  by_cases hi : pnew.id = i
  · right
    have hs : (findBy Post.id db.posts pnew.id).isSome := by
      rw [hi, hp']
      rfl
    have hself := findBy_saveBy_self Post.id db.posts pnew hs
    rw [hi] at hself
    rw [hself] at hq'
    cases hq'
    rfl
  · left
    rw [findBy_saveBy_ne Post.id db.posts pnew i hi, hp'] at hq'
    cases hq'
    rfl

theorem findPost_removePost (db : DB) (j i : Nat) (q : Post)
    (hq : findPost (removePostById db j) i = some q) :
    findPost db i = some q := by
  have hq' : findBy Post.id (db.posts.filter (fun y => !(y.id == j))) i =
      some q := hq
  by_cases hij : i = j
  · rw [hij, findBy_filter_self] at hq'
    cases hq'
  · rw [findBy_filter_ne Post.id db.posts j i hij] at hq'
    exact hq'

/-- C1 (counterexample): a pending post (allowed=false) is moved to
allowed=true by updatePost when its author edits it, an operation other than
allowPostRequest; so the pending-to-published transition does not fire only
via allowPostRequest. -/
theorem updatePost_flips_pending_to_published :
    (findPost ⟨[⟨1, "old titles", "old content", 10, false⟩], []⟩ 1).map
      Post.allowed = some false ∧
    (findPost (updatePost ⟨[⟨1, "old titles", "old content", 10, false⟩], []⟩
        1 10 "Hello" "World").2 1).map Post.allowed = some true := by decide

/-- C1 (amended): the allowed flag of a stored post only ever moves from
false to true, never back, and the only operations that change it are the two
moderation writers allowPostRequest and updatePost (the latter resets allowed
to true on any successful author edit); createPost, deletePost and register
leave every surviving post unchanged, and the read endpoints take the store
only as input. -/
theorem allowed_flag_transitions (db : DB) (op : Op) (i : Nat) (p q : Post)
    (hp : findPost db i = some p) (hq : findPost (applyOp db op) i = some q) :
    (p.allowed = true → q.allowed = true) ∧
    (op.isModeration = false → q = p) := by
  have base : q = p →
      (p.allowed = true → q.allowed = true) ∧
      (op.isModeration = false → q = p) :=
    fun h => ⟨fun ha => h ▸ ha, fun _ => h⟩
  cases op with
  | create newId authorId t c =>
    apply base
    have hq' : findBy Post.id
        (((createPost db newId authorId t c).2).posts) i = some q := hq
    have hp' : findBy Post.id db.posts i = some p := hp
    rcases createPost_posts db newId authorId t c with hpp | hpp
    · rw [hpp, hp'] at hq'
      cases hq'
      rfl
    · rw [hpp, findBy_append_some Post.id db.posts _ i p hp'] at hq'
      cases hq'
      rfl
  | signup newId e pw f l =>
    apply base
    have hq' : findBy Post.id
        (((register db newId e pw f l).2).posts) i = some q := hq
    have hp' : findBy Post.id db.posts i = some p := hp
    rw [register_posts, hp'] at hq'
    cases hq'
    rfl
  | update postId editorId t c =>
    simp only [applyOp] at hq
    cases hv : validPostInput t c with
    | false =>
      simp [updatePost, hv] at hq
      rw [hp] at hq
      cases hq
      exact base rfl
    | true =>
      cases hfp : findPost db postId with
      | none =>
        simp [updatePost, hv, hfp] at hq
        rw [hp] at hq
        cases hq
        exact base rfl
      | some p0 =>
        cases hab : (p0.author == editorId) with
        | false =>
          simp [updatePost, hv, hfp, hab] at hq
          rw [hp] at hq
          cases hq
          exact base rfl
        | true =>
          simp [updatePost, hv, hfp, hab] at hq
          rcases findPost_savePost_cases db i p _ q hp hq with h | h
          · exact base h
          · refine ⟨fun _ => by rw [h], fun hmod => ?_⟩
            simp [Op.isModeration] at hmod
  | approve postId viewerId =>
    simp only [applyOp] at hq
    cases hu : findUser db viewerId with
    | none =>
      simp [allowPostRequest, hu] at hq
      rw [hp] at hq
      cases hq
      exact base rfl
    | some u =>
      cases hr : (u.role == "ADMIN") with
      | false =>
        simp [allowPostRequest, hu, hr] at hq
        rw [hp] at hq
        cases hq
        exact base rfl
      | true =>
        cases hfp : findPost db postId with
        | none =>
          simp [allowPostRequest, hu, hr, hfp] at hq
          rw [hp] at hq
          cases hq
          exact base rfl
        | some p0 =>
          simp [allowPostRequest, hu, hr, hfp, findUser_savePost] at hq
          have hend : findPost (savePost db { p0 with allowed := true }) i =
              some q := by
            cases hau : findUser db p0.author with
            | none =>
              rw [hau] at hq
              simpa using hq
            | some a =>
              rw [hau] at hq
              by_cases har : a.role = "ADMIN"
              · simpa [har] using hq
              · simpa [har, findPost_saveUser] using hq
          rcases findPost_savePost_cases db i p _ q hp hend with h | h
          · exact base h
          · refine ⟨fun _ => by rw [h], fun hmod => ?_⟩
            simp [Op.isModeration] at hmod
  | remove postId editorId =>
    apply base
    simp only [applyOp] at hq
    cases hfp : findPost db postId with
    | none =>
      simp [deletePost, hfp] at hq
      rw [hp] at hq
      cases hq
      rfl
    | some p0 =>
      cases hab : (p0.author == editorId) with
      | false =>
        simp [deletePost, hfp, hab] at hq
        rw [hp] at hq
        cases hq
        rfl
      | true =>
        simp [deletePost, hfp, hab, findUser_removePost] at hq
        have hq2 : findPost (removePostById db postId) i = some q := by
          cases hau : findUser db editorId with
          | none =>
            rw [hau] at hq
            simpa using hq
          | some u2 =>
            rw [hau] at hq
            simpa [findPost_saveUser] using hq
        have hq3 := findPost_removePost db postId i q hq2
        rw [hp] at hq3
        cases hq3
        rfl

theorem allowed_flag_transitions_witness :
    ((⟨1, "Hello", "World", 10, false⟩ : Post).allowed = true →
      (⟨1, "Hello", "World", 10, false⟩ : Post).allowed = true) ∧
    (Op.isModeration (Op.signup 5 "b@x.com" "secret" "Cy" "Do") = false →
      (⟨1, "Hello", "World", 10, false⟩ : Post) =
        ⟨1, "Hello", "World", 10, false⟩) :=
  allowed_flag_transitions ⟨[⟨1, "Hello", "World", 10, false⟩], []⟩
    (Op.signup 5 "b@x.com" "secret" "Cy" "Do") 1
    ⟨1, "Hello", "World", 10, false⟩ ⟨1, "Hello", "World", 10, false⟩
    (by decide) (by decide)

theorem findPost_savePost_found (db : DB) (i : Nat) (p pnew : Post)
    (hp : findPost db i = some p) (hid : pnew.id = i) :
    findPost (savePost db pnew) i = some pnew := by
  have hp' : findBy Post.id db.posts i = some p := hp
  have hs : (findBy Post.id db.posts pnew.id).isSome := by
    rw [hid, hp']
    rfl
  have h2 := findBy_saveBy_self Post.id db.posts pnew hs
  rw [hid] at h2
  exact h2

theorem findUser_saveUser_found (db : DB) (i : Nat) (u unew : User)
    (hu : findUser db i = some u) (hid : unew.id = i) :
    findUser (saveUser db unew) i = some unew := by
  have hu' : findBy User.id db.users i = some u := hu
  have hs : (findBy User.id db.users unew.id).isSome := by
    rw [hid, hu']
    rfl
  have h2 := findBy_saveBy_self User.id db.users unew hs
  rw [hid] at h2
  exact h2

theorem findUser_saveUser_other (db : DB) (i : Nat) (unew : User)
    (hid : unew.id ≠ i) :
    findUser (saveUser db unew) i = findUser db i :=
  findBy_saveBy_ne User.id db.users unew i hid

/-- C2: approve fails 401 with the store untouched whenever the viewer exists
with a role other than ADMIN; for an ADMIN viewer, an existing post and an
existing author it sets the post allowed flag to true and persists the post,
then loads the author of the post and, when the author role is not ADMIN,
sets it to BLOGGER and persists the author, leaving an ADMIN author alone. -/
theorem allowPostRequest_spec (db : DB) (postId viewerId : Nat) :
    (∀ u, findUser db viewerId = some u → u.role ≠ "ADMIN" →
      allowPostRequest db postId viewerId = (.error notAuthorizedErr, db)) ∧
    (∀ u p a, findUser db viewerId = some u → u.role = "ADMIN" →
      findPost db postId = some p → findUser db p.author = some a →
      allowPostRequest db postId viewerId =
        (.ok { p with allowed := true },
         if a.role = "ADMIN" then savePost db { p with allowed := true }
         else saveUser (savePost db { p with allowed := true })
                { a with role := "BLOGGER" })) := by
  constructor
  · intro u hu hrole
    have hb : (u.role == "ADMIN") = false := by simpa using hrole
    simp [allowPostRequest, hu, hb]
  · intro u p a hu hrole hp ha
    have hb : (u.role == "ADMIN") = true := by simpa using hrole
    by_cases har : a.role = "ADMIN"
    · simp [allowPostRequest, hu, hb, hp, findUser_savePost, ha, har]
    · simp [allowPostRequest, hu, hb, hp, findUser_savePost, ha, har]

theorem allowPostRequest_spec_witness :
    allowPostRequest ⟨[], [⟨20, "u@x.com", "h", "Ul", "Vo", "USER", []⟩]⟩
        1 20 =
      (.error notAuthorizedErr,
       ⟨[], [⟨20, "u@x.com", "h", "Ul", "Vo", "USER", []⟩]⟩) ∧
    allowPostRequest
        ⟨[⟨1, "Hello", "World", 10, false⟩],
         [⟨2, "adm@x.com", "h", "Ad", "Min", "ADMIN", []⟩,
          ⟨10, "b@x.com", "h", "Bl", "Og", "USER", [1]⟩]⟩ 1 2 =
      (.ok { (⟨1, "Hello", "World", 10, false⟩ : Post) with allowed := true },
       if ("USER" : String) = "ADMIN" then
         savePost ⟨[⟨1, "Hello", "World", 10, false⟩],
           [⟨2, "adm@x.com", "h", "Ad", "Min", "ADMIN", []⟩,
            ⟨10, "b@x.com", "h", "Bl", "Og", "USER", [1]⟩]⟩
           { (⟨1, "Hello", "World", 10, false⟩ : Post) with allowed := true }
       else
         saveUser (savePost ⟨[⟨1, "Hello", "World", 10, false⟩],
             [⟨2, "adm@x.com", "h", "Ad", "Min", "ADMIN", []⟩,
              ⟨10, "b@x.com", "h", "Bl", "Og", "USER", [1]⟩]⟩
             { (⟨1, "Hello", "World", 10, false⟩ : Post) with
               allowed := true })
           { (⟨10, "b@x.com", "h", "Bl", "Og", "USER", [1]⟩ : User) with
             role := "BLOGGER" }) := by
  constructor
  · exact (allowPostRequest_spec
      ⟨[], [⟨20, "u@x.com", "h", "Ul", "Vo", "USER", []⟩]⟩ 1 20).1
      ⟨20, "u@x.com", "h", "Ul", "Vo", "USER", []⟩ rfl (by decide)
  · exact (allowPostRequest_spec
      ⟨[⟨1, "Hello", "World", 10, false⟩],
       [⟨2, "adm@x.com", "h", "Ad", "Min", "ADMIN", []⟩,
        ⟨10, "b@x.com", "h", "Bl", "Og", "USER", [1]⟩]⟩ 1 2).2
      ⟨2, "adm@x.com", "h", "Ad", "Min", "ADMIN", []⟩
      ⟨1, "Hello", "World", 10, false⟩
      ⟨10, "b@x.com", "h", "Bl", "Og", "USER", [1]⟩
      rfl rfl rfl rfl

/-- C6: createPost and deletePost keep the bidirectional author reference
consistent: a successful createPost inserts the post with the caller as its
author and appends the post id to the author posts list, persisting the
author; a successful deletePost removes the post from the post store and
pulls its id from the author posts list, persisting the author. -/
theorem create_delete_back_reference (db : DB) :
    (∀ newId authorId t c u,
      validPostInput t c = true →
      findPost db newId = none →
      findUser db authorId = some u →
      findPost (createPost db newId authorId t c).2 newId =
        some ⟨newId, strTrim t, strTrim c, authorId, false⟩ ∧
      findUser (createPost db newId authorId t c).2 authorId =
        some { u with posts := u.posts ++ [newId] }) ∧
    (∀ postId editorId p u,
      findPost db postId = some p → p.author = editorId →
      findUser db editorId = some u →
      findPost (deletePost db postId editorId).2 postId = none ∧
      findUser (deletePost db postId editorId).2 editorId =
        some { u with posts := u.posts.filter (fun x => !(x == postId)) }) := by
  constructor
  · intro newId authorId t c u hv hfresh hu
    have hins : insertPost db ⟨newId, strTrim t, strTrim c, authorId, false⟩ =
        some { db with posts :=
          db.posts ++ [⟨newId, strTrim t, strTrim c, authorId, false⟩] } := by
      simp [insertPost, hfresh]
    have hu1 : findUser { db with posts :=
        db.posts ++ [⟨newId, strTrim t, strTrim c, authorId, false⟩] }
        authorId = some u := hu
    have hres : (createPost db newId authorId t c).2 =
        saveUser { db with posts :=
          db.posts ++ [⟨newId, strTrim t, strTrim c, authorId, false⟩] }
          { u with posts := u.posts ++ [newId] } := by
      simp [createPost, hv, hins, hu1]
    rw [hres]
    constructor
    · rw [findPost_saveUser]
      have hfresh' : findBy Post.id db.posts newId = none := hfresh
      have h2 := findBy_append_none Post.id db.posts
        [⟨newId, strTrim t, strTrim c, authorId, false⟩] newId hfresh'
      have h3 := findBy_singleton Post.id
        (⟨newId, strTrim t, strTrim c, authorId, false⟩ : Post)
      exact h2.trans h3
    · apply findUser_saveUser_found
      · exact hu1
      · exact findBy_eq_key User.id db.users authorId u hu
  · intro postId editorId p u hp hauth hu
    have hb : (p.author == editorId) = true := by simpa using hauth
    have hu1 : findUser (removePostById db postId) editorId = some u := hu
    have hres : (deletePost db postId editorId).2 =
        saveUser (removePostById db postId)
          { u with posts := u.posts.filter (fun x => !(x == postId)) } := by
      simp [deletePost, hp, hb, hu1]
    rw [hres]
    constructor
    · rw [findPost_saveUser]
      exact findBy_filter_self Post.id db.posts postId
    · apply findUser_saveUser_found
      · exact hu1
      · exact findBy_eq_key User.id db.users editorId u hu

theorem create_delete_back_reference_witness :
    findPost (createPost ⟨[], [⟨10, "b@x.com", "h", "Bl", "Og", "USER", []⟩]⟩
        1 10 "Hello" "World").2 1 = some ⟨1, "Hello", "World", 10, false⟩ ∧
    findUser (createPost ⟨[], [⟨10, "b@x.com", "h", "Bl", "Og", "USER", []⟩]⟩
        1 10 "Hello" "World").2 10 =
      some ⟨10, "b@x.com", "h", "Bl", "Og", "USER", [1]⟩ ∧
    findPost (deletePost ⟨[⟨1, "Hello", "World", 10, false⟩],
        [⟨10, "b@x.com", "h", "Bl", "Og", "USER", [1]⟩]⟩ 1 10).2 1 = none ∧
    findUser (deletePost ⟨[⟨1, "Hello", "World", 10, false⟩],
        [⟨10, "b@x.com", "h", "Bl", "Og", "USER", [1]⟩]⟩ 1 10).2 10 =
      some ⟨10, "b@x.com", "h", "Bl", "Og", "USER", []⟩ := by
  have h1 := (create_delete_back_reference
    ⟨[], [⟨10, "b@x.com", "h", "Bl", "Og", "USER", []⟩]⟩).1
    1 10 "Hello" "World" ⟨10, "b@x.com", "h", "Bl", "Og", "USER", []⟩
    (by decide) rfl rfl
  have h2 := (create_delete_back_reference
    ⟨[⟨1, "Hello", "World", 10, false⟩],
     [⟨10, "b@x.com", "h", "Bl", "Og", "USER", [1]⟩]⟩).2
    1 10 ⟨1, "Hello", "World", 10, false⟩
    ⟨10, "b@x.com", "h", "Bl", "Og", "USER", [1]⟩ rfl rfl rfl
  exact ⟨h1.1, h1.2, h2.1, by simpa using h2.2⟩

/-- C4: approval is idempotent: for a stored post, an ADMIN viewer and an
existing author, running allowPostRequest twice leaves the post store and the
user store exactly as running it once, and after one run the post is
published (allowed=true) and the author role is BLOGGER or ADMIN. -/
theorem allowPostRequest_idempotent (db : DB) (postId viewerId : Nat)
    (u : User) (p : Post) (a : User)
    (hu : findUser db viewerId = some u) (hadmin : u.role = "ADMIN")
    (hp : findPost db postId = some p) (ha : findUser db p.author = some a) :
    (allowPostRequest (allowPostRequest db postId viewerId).2
        postId viewerId).2 = (allowPostRequest db postId viewerId).2 ∧
    (∃ q, findPost (allowPostRequest db postId viewerId).2 postId = some q ∧
      q.allowed = true) ∧
    (∃ b, findUser (allowPostRequest db postId viewerId).2 p.author =
      some b ∧ (b.role = "BLOGGER" ∨ b.role = "ADMIN")) := by
  have hb : (u.role == "ADMIN") = true := by simpa using hadmin
  have hpid : p.id = postId := findBy_eq_key Post.id db.posts postId p hp
  have haid : a.id = p.author := findBy_eq_key User.id db.users p.author a ha
  have hppost : findPost (savePost db { p with allowed := true }) postId =
      some { p with allowed := true } :=
    findPost_savePost_found db postId p _ hp hpid
  by_cases hadm2 : a.role = "ADMIN"
  · have honce : (allowPostRequest db postId viewerId).2 =
        savePost db { p with allowed := true } := by
      simp [allowPostRequest, hu, hb, hp, findUser_savePost, ha, hadm2]
    refine ⟨?_, ?_, ?_⟩
    · rw [honce]
      have hu2 : findUser (savePost db { p with allowed := true }) viewerId =
          some u := hu
      have ha2 : findUser (savePost db { p with allowed := true }) p.author =
          some a := ha
      simp [allowPostRequest, hu2, hb, hppost, findUser_savePost, ha2, hadm2,
        savePost_savePost]
    · exact ⟨{ p with allowed := true }, by rw [honce]; exact hppost, rfl⟩
    · exact ⟨a, by rw [honce]; exact ha, Or.inr hadm2⟩
  · have hvne : p.author ≠ viewerId := by
      intro hh
      apply hadm2
      have heq : some a = some u := by rw [← ha, hh, hu]
      injection heq with heq2
      rw [heq2]
      exact hadmin
    have honce : (allowPostRequest db postId viewerId).2 =
        saveUser (savePost db { p with allowed := true })
          { a with role := "BLOGGER" } := by
      simp [allowPostRequest, hu, hb, hp, findUser_savePost, ha, hadm2]
    refine ⟨?_, ?_, ?_⟩
    · rw [honce]
      have hane : (User.id { a with role := "BLOGGER" }) ≠ viewerId := by
        show a.id ≠ viewerId
        rw [haid]
        exact hvne
      have hu2 : findUser (saveUser (savePost db { p with allowed := true })
          { a with role := "BLOGGER" }) viewerId = some u := by
        rw [findUser_saveUser_other _ _ _ hane]
        exact hu
      have hpp2 : findPost (saveUser (savePost db { p with allowed := true })
          { a with role := "BLOGGER" }) postId =
          some { p with allowed := true } := by
        rw [findPost_saveUser]
        exact hppost
      have ha2 : findUser (saveUser (savePost db { p with allowed := true })
          { a with role := "BLOGGER" }) p.author =
          some { a with role := "BLOGGER" } := by
        apply findUser_saveUser_found _ _ a
        · exact ha
        · exact haid
      simp only [allowPostRequest, hu2, hb, Bool.not_true, hpp2,
        findUser_savePost, ha2]
      apply DB.ext
      · simp [saveUser, savePost, saveBy_saveBy]
      · simp [saveUser, savePost, saveBy_saveBy]
    · exact ⟨{ p with allowed := true },
        by rw [honce, findPost_saveUser]; exact hppost, rfl⟩
    · refine ⟨{ a with role := "BLOGGER" }, ?_, Or.inl rfl⟩
      rw [honce]
      apply findUser_saveUser_found _ _ a
      · exact ha
      · exact haid

theorem allowPostRequest_idempotent_witness :
    (allowPostRequest (allowPostRequest
        ⟨[⟨1, "Hello", "World", 10, false⟩],
         [⟨2, "adm@x.com", "h", "Ad", "Min", "ADMIN", []⟩,
          ⟨10, "b@x.com", "h", "Bl", "Og", "USER", [1]⟩]⟩ 1 2).2 1 2).2 =
      (allowPostRequest ⟨[⟨1, "Hello", "World", 10, false⟩],
         [⟨2, "adm@x.com", "h", "Ad", "Min", "ADMIN", []⟩,
          ⟨10, "b@x.com", "h", "Bl", "Og", "USER", [1]⟩]⟩ 1 2).2 ∧
    (∃ q, findPost (allowPostRequest ⟨[⟨1, "Hello", "World", 10, false⟩],
         [⟨2, "adm@x.com", "h", "Ad", "Min", "ADMIN", []⟩,
          ⟨10, "b@x.com", "h", "Bl", "Og", "USER", [1]⟩]⟩ 1 2).2 1 =
      some q ∧ q.allowed = true) ∧
    (∃ b, findUser (allowPostRequest ⟨[⟨1, "Hello", "World", 10, false⟩],
         [⟨2, "adm@x.com", "h", "Ad", "Min", "ADMIN", []⟩,
          ⟨10, "b@x.com", "h", "Bl", "Og", "USER", [1]⟩]⟩ 1 2).2
        (Post.author ⟨1, "Hello", "World", 10, false⟩) =
      some b ∧ (b.role = "BLOGGER" ∨ b.role = "ADMIN")) :=
  allowPostRequest_idempotent
    ⟨[⟨1, "Hello", "World", 10, false⟩],
     [⟨2, "adm@x.com", "h", "Ad", "Min", "ADMIN", []⟩,
      ⟨10, "b@x.com", "h", "Bl", "Og", "USER", [1]⟩]⟩ 1 2
    ⟨2, "adm@x.com", "h", "Ad", "Min", "ADMIN", []⟩
    ⟨1, "Hello", "World", 10, false⟩
    ⟨10, "b@x.com", "h", "Bl", "Og", "USER", [1]⟩
    rfl rfl rfl rfl

example :
    getPost ⟨[], []⟩ 7 = .error ⟨404, "Could not find post."⟩ := by decide

example :
    getPosts ⟨[⟨1, "Hello", "World flat", 10, true⟩], []⟩ none 1 =
      .ok ([⟨1, "Hello", "World flat", 10, true⟩], 1) := by decide

example :
    (updatePost ⟨[⟨1, "old titles", "old content", 10, false⟩], []⟩
        1 10 "Hello" "World").2 =
      ⟨[⟨1, "Hello", "World", 10, true⟩], []⟩ := by decide

end Blog
